import Mathlib

/-!
Shallow embedding of the simulation core of `python_game.py`: the entity/world
data model, the per-turn update algorithm (player action resolution, enemy AI,
spawning, win/lose detection) and the game-progression state machine.
Randomness (Python's `random.choice` / `random.randint`) is modelled as an
explicitly passed record of choice streams.
-/

namespace PythonGame

/-- Configuration constant `GX` (grid width) from the source. -/
def GX : Int := 32

/-- Configuration constant `GY` (grid height) from the source. -/
def GY : Int := 12

/-- Configuration constant `Q_SPAWN_INTERVAL` from the source. -/
def Q_SPAWN_INTERVAL : Nat := 10

/-- Configuration constant `Q_MOVE_INTERVAL` from the source. -/
def Q_MOVE_INTERVAL : Nat := 2

/-- Configuration constant `Q_RANGE` (detection radius) from the source. -/
def Q_RANGE : Nat := 2

/-- `Entity.__init__`: position, display character and solidity. -/
structure Entity where
  x : Int
  y : Int
  char : Char
  solid : Bool
deriving DecidableEq, Repr

/-- `World.__init__`: grid size, the ordered entity collection and the two
terminal flags `game_over` and `win`. -/
structure World where
  width : Int
  height : Int
  entities : List Entity
  game_over : Bool
  win : Bool
deriving DecidableEq, Repr

/-- Replace the element at index `i` by `f` of it (identity out of range);
models in-place mutation of the `i`-th entity object of `world.entities`. -/
def modifyAt (l : List Entity) (i : Nat) (f : Entity → Entity) : List Entity :=
  match l, i with
  | [], _ => []
  | e :: rest, 0 => f e :: rest
  | e :: rest, n + 1 => e :: modifyAt rest n f

/-- Update an entity's coordinates (`self.x, self.y = new_x, new_y`). -/
def updPos (nx ny : Int) (e : Entity) : Entity :=
  { e with x := nx, y := ny }

/-- `World.is_solid_at`: out-of-bounds coordinates are solid, otherwise any
solid entity at the cell makes it solid. -/
def World.is_solid_at (w : World) (x y : Int) : Bool :=
  decide (x < 0) || decide (x ≥ w.width) || decide (y < 0) || decide (y ≥ w.height) ||
    w.entities.any (fun e => e.solid && e.x == x && e.y == y)

/-- `World.get_entity_at`: first entity (in collection order) at `(x, y)`. -/
def World.get_entity_at (w : World) (x y : Int) : Option Entity :=
  w.entities.find? (fun e => e.x == x && e.y == y)

/-- `World.get_player`: first entity whose character is `'@'`. -/
def World.get_player (w : World) : Option Entity :=
  w.entities.find? (fun e => e.char == '@')

/-- Move the entity stored at index `i` of the world's collection. -/
def setPos (w : World) (i : Nat) (nx ny : Int) : World :=
  { w with entities := modifyAt w.entities i (updPos nx ny) }

/-- `Enemy.take_turn` (the roamer, kind `E`), acting on the entity at index
`i`, with `d` the delta produced by `random.choice`.  The solidity check runs
first; only a non-solid destination is compared against the player's
position. -/
def enemyTakeTurn (w : World) (i : Nat) (d : Int × Int) : World :=
  match w.entities[i]? with
  | none => w
  | some e =>
    let nx := e.x + d.1
    let ny := e.y + d.2
    if w.is_solid_at nx ny then w
    else
      match w.get_player with
      | some p =>
        if p.x == nx && p.y == ny then { w with game_over := true }
        else setPos w i nx ny
      | none => setPos w i nx ny

/-- Manhattan distance between two cells. -/
def manhattan (ax ay bx by_ : Int) : Nat :=
  (ax - bx).natAbs + (ay - by_).natAbs

/-- `QEnemy.take_turn` (the pursuer, kind `Q`), acting on the entity at index
`i`: a no-op unless `player_moves % Q_MOVE_INTERVAL == 0`; otherwise it moves
to a non-solid destination and then runs the Manhattan-range check against the
player's position, setting `game_over` within range `Q_RANGE`. -/
def qTakeTurn (w : World) (i : Nat) (pm : Nat) (d : Int × Int) : World :=
  match w.entities[i]? with
  | none => w
  | some e =>
    if pm % Q_MOVE_INTERVAL ≠ 0 then w
    else
      let nx := e.x + d.1
      let ny := e.y + d.2
      let w1 := if w.is_solid_at nx ny then w else setPos w i nx ny
      match w1.get_player with
      | none => w1
      | some p =>
        match w1.entities[i]? with
        | none => w1
        | some e1 =>
          if manhattan e1.x e1.y p.x p.y ≤ Q_RANGE then { w1 with game_over := true }
          else w1

/-- The entity built by `QEnemy.__init__`. -/
def qEnemyEnt (x y : Int) : Entity :=
  ⟨x, y, 'Q', true⟩

/-- The randomness consumed by one turn: one `random.choice` delta per roamer,
one per pursuer (indexed by position in the activation pass), and the
`random.randint` spawn cell. -/
structure Rand where
  eChoice : Nat → Int × Int
  qChoice : Nat → Int × Int
  spawnCell : Int × Int

/-- The five deltas of `random.choice([(1,0), (-1,0), (0,1), (0,-1), (0,0)])`. -/
def legalDelta (d : Int × Int) : Prop :=
  d = (1, 0) ∨ d = (-1, 0) ∨ d = (0, 1) ∨ d = (0, -1) ∨ d = (0, 0)

/-- Randomness that the Python `random` module can actually produce: legal
deltas, and a spawn cell within the `randint(2, GX-4) × randint(1, GY-3)`
ranges. -/
def Rand.Valid (r : Rand) : Prop :=
  (∀ k, legalDelta (r.eChoice k)) ∧ (∀ k, legalDelta (r.qChoice k)) ∧
    2 ≤ r.spawnCell.1 ∧ r.spawnCell.1 ≤ GX - 4 ∧
    1 ≤ r.spawnCell.2 ∧ r.spawnCell.2 ≤ GY - 3

/-- `chr(key).lower()` followed by the `wasd` branch chain of `main`; every
other key (including none pending) leaves the direction at `(0, 0)`. -/
def toDirection (key : Option Char) : Int × Int :=
  match key with
  | none => (0, 0)
  | some c =>
    let c := c.toLower
    if c = 'w' then (0, -1)
    else if c = 's' then (0, 1)
    else if c = 'a' then (-1, 0)
    else if c = 'd' then (1, 0)
    else (0, 0)

/-- Index of the player entity in the collection (the object `main` aliases as
`player`; the unique entity with character `'@'`). -/
def playerIdx (w : World) : Nat :=
  w.entities.findIdx (fun e => e.char == '@')

/-- Player action resolution (`main`, the body of `if direction != (0, 0)` up
to `moved_this_turn`): returns the updated world and whether the player was
displaced. -/
def moveStage (w : World) (key : Option Char) : World × Bool :=
  let d := toDirection key
  if d = (0, 0) then (w, false)
  else
    match w.entities[playerIdx w]? with
    | none => (w, false)
    | some p =>
      let nx := p.x + d.1
      let ny := p.y + d.2
      match w.get_entity_at nx ny with
      | some t =>
        if t.char == 'E' || t.char == 'Q' then ({ w with game_over := true }, false)
        else if t.char == 'G' then ({ w with win := true }, false)
        else if !t.solid then (setPos w (playerIdx w) nx ny, true)
        else (w, false)
      | none =>
        if w.is_solid_at nx ny then (w, false)
        else (setPos w (playerIdx w) nx ny, true)

/-- Run one activation pass: each pair is an entity index together with its
`random.choice` delta, applied in order to the mutating world. -/
def passFold (f : World → Nat → Int × Int → World) : World → List (Nat × (Int × Int)) → World
  | w, [] => w
  | w, p :: rest => passFold f (f w p.1 p.2) rest

/-- Pair each roster index with its delta from the choice stream. -/
def withChoices (idxs : List Nat) (r : Nat → Int × Int) (k : Nat) : List (Nat × (Int × Int)) :=
  match idxs with
  | [] => []
  | i :: rest => (i, r k) :: withChoices rest r (k + 1)

/-- Indices of the entities with character `c`, in collection order. -/
def idxsWithChar (c : Char) (l : List Entity) : List Nat :=
  (List.range l.length).filter (fun i =>
    match l[i]? with
    | some e => e.char == c
    | none => false)

/-- `World.get_enemies` as an index snapshot: the roamer roster. -/
def eRoster (w : World) : List Nat :=
  idxsWithChar 'E' w.entities

/-- `World.get_q_enemies` as an index snapshot: the pursuer roster. -/
def qRoster (w : World) : List Nat :=
  idxsWithChar 'Q' w.entities

/-- The roamer activation pass (`for e in world.get_enemies(): e.take_turn`). -/
def ePass (w : World) (r : Rand) : World :=
  passFold enemyTakeTurn w (withChoices (eRoster w) r.eChoice 0)

/-- The pursuer activation pass
(`for q in world.get_q_enemies(): q.take_turn(world, player_moves)`). -/
def qPass (w : World) (pm : Nat) (r : Rand) : World :=
  passFold (fun w' i d => qTakeTurn w' i pm d) w (withChoices (qRoster w) r.qChoice 0)

/-- The spawn step of `main`: every `Q_SPAWN_INTERVAL` player moves, add a new
pursuer at the random cell when that cell is not solid. -/
def spawnStep (w : World) (pm : Nat) (r : Rand) : World :=
  if pm % Q_SPAWN_INTERVAL = 0 then
    if w.is_solid_at r.spawnCell.1 r.spawnCell.2 then w
    else { w with entities := w.entities ++ [qEnemyEnt r.spawnCell.1 r.spawnCell.2] }
  else w

/-- Everything `main` runs under `if moved_this_turn:` after the increment:
roamer pass, pursuer pass, spawn step, with the post-increment counter. -/
def afterMove (w : World) (pm : Nat) (r : Rand) : World :=
  spawnStep (qPass (ePass w r) pm r) pm r

/-- The engine state of the current turn just before the spawn step: the world
after player action resolution and both activation passes (or after player
action resolution alone when the player was not displaced, since the passes
only run on displacement). -/
def preSpawn (w : World) (pm : Nat) (key : Option Char) (r : Rand) : World :=
  let m := moveStage w key
  if m.2 then qPass (ePass m.1 r) (pm + 1) r else m.1

/-- One full iteration of the `while` loop of `main` on one decoded input
symbol: player action resolution, then (on displacement only) the counter
increment, both enemy activation passes and the spawn step. -/
def tick (w : World) (pm : Nat) (key : Option Char) (r : Rand) : World × Nat :=
  let m := moveStage w key
  if m.2 then (afterMove m.1 (pm + 1) r, pm + 1) else (m.1, pm)

/-- Feed a sequence of input symbols to the engine, stopping — as the `while`
condition does — once `game_over` or `win` holds. -/
def runKeys (r : Rand) : World × Nat → List (Option Char) → World × Nat
  | s, [] => s
  | s, k :: rest =>
    if s.1.game_over || s.1.win then runKeys r s rest
    else runKeys r (tick s.1 s.2 k r) rest

/-- The player's coordinates, when a player entity exists. -/
def playerPos (w : World) : Option (Int × Int) :=
  (w.get_player).map (fun e => (e.x, e.y))

/-- Whether this turn's player action resolves onto the goal entity's cell
(the branch of `main` that sets `world.win`). -/
def goalHit (w : World) (key : Option Char) : Bool :=
  let d := toDirection key
  if d = (0, 0) then false
  else
    match w.entities[playerIdx w]? with
    | none => false
    | some p =>
      match w.get_entity_at (p.x + d.1) (p.y + d.2) with
      | some t => !(t.char == 'E' || t.char == 'Q') && t.char == 'G'
      | none => false

/-- The initial world built by `main`: player, three roamers, goal, and the
floor line. -/
def initWorld : World :=
  { width := GX, height := GY,
    entities :=
      ⟨1, 10, '@', true⟩ :: ⟨10, 10, 'E', true⟩ :: ⟨18, 9, 'E', true⟩ ::
        ⟨24, 10, 'E', true⟩ :: ⟨29, 10, 'G', false⟩ ::
        (List.range 32).map (fun x => ⟨(x : Int), 11, '#', true⟩),
    game_over := false, win := false }

/-- The session states reachable from `main`'s initial configuration by
feeding input symbols, with randomness the `random` module can produce, while
the loop is still running. -/
inductive Reachable : World → Nat → Prop where
  | init : Reachable initWorld 0
  | step : ∀ w m key r, Reachable w m → Rand.Valid r → w.game_over = false →
      w.win = false → Reachable (tick w m key r).1 (tick w m key r).2

/-- Whether `c` tags an enemy entity (roamer or pursuer). -/
def isEnemyChar (c : Char) : Bool :=
  c == 'E' || c == 'Q'

/-- Two distinct enemy entities occupy the same cell. -/
def hasStack (w : World) : Prop :=
  ∃ (i j : Nat) (e1 e2 : Entity),
    i < j ∧ w.entities[i]? = some e1 ∧ w.entities[j]? = some e2 ∧
    isEnemyChar e1.char = true ∧ isEnemyChar e2.char = true ∧
    e1.x = e2.x ∧ e1.y = e2.y

/-- Some reachable session state has two enemies stacked on one cell. -/
def StackingPossible : Prop :=
  ∃ w m, Reachable w m ∧ hasStack w

/-- The character sequence of the entity collection. -/
def charsOf (l : List Entity) : List Char :=
  l.map (fun e => e.char)

/-- The old world and the new one agree on the character sequence, the
player's position, the collection length and the win flag. -/
def SameFrame (w0 w : World) : Prop :=
  charsOf w.entities = charsOf w0.entities ∧ playerPos w = playerPos w0 ∧
    w.entities.length = w0.entities.length ∧ w.win = w0.win

/-- Every entity tagged `E` or `Q` is solid (as `Enemy.__init__` and
`QEnemy.__init__` construct them). -/
def EnemySolid (l : List Entity) : Prop :=
  ∀ (j : Nat) (e : Entity), l[j]? = some e → isEnemyChar e.char = true → e.solid = true

/-- No two distinct enemy entities occupy the same cell. -/
def NoStack (l : List Entity) : Prop :=
  ∀ (i j : Nat) (e1 e2 : Entity), i < j → l[i]? = some e1 → l[j]? = some e2 →
    isEnemyChar e1.char = true → isEnemyChar e2.char = true →
    ¬(e1.x = e2.x ∧ e1.y = e2.y)

/-- Executable check for `EnemySolid`. -/
def enemySolidB (l : List Entity) : Bool :=
  l.all (fun e => !(isEnemyChar e.char) || e.solid)

/-- Executable check for `NoStack`. -/
def stackFreeB : List Entity → Bool
  | [] => true
  | e :: rest =>
    (!(isEnemyChar e.char) ||
      rest.all (fun f => !(isEnemyChar f.char && f.x == e.x && f.y == e.y))) &&
    stackFreeB rest

/-- The stacking invariant carried through every reachable state. -/
def Inv (w : World) : Prop :=
  EnemySolid w.entities ∧ NoStack w.entities

/-! ### Concrete scenario worlds used by the claims -/

/-- Scenario A of the spec: 12×3 world, player at (1,1), wall line at y = 2,
goal at (9,1), no enemies. -/
def scenarioAWorld : World :=
  { width := 12, height := 3,
    entities := ⟨1, 1, '@', true⟩ :: ⟨9, 1, 'G', false⟩ ::
      (List.range 12).map (fun x => ⟨(x : Int), 2, '#', true⟩),
    game_over := false, win := false }

/-- A fixed randomness: every choice is "stay", spawn cell (2,1). -/
def trivRand : Rand :=
  ⟨fun _ => (0, 0), fun _ => (0, 0), (2, 1)⟩

/-- Eight presses of the Right key. -/
def keysRight8 : List (Option Char) :=
  List.replicate 8 (some 'd')

/-- The final session state of Scenario A: feed Right eight times. -/
def scenarioARun : World × Nat :=
  runKeys trivRand (scenarioAWorld, 0) keysRight8

/-- Roamer-collision scenario: player at (1,1), roamer at (2,1); the delta
(-1,0) makes the roamer's destination the player's exact cell. -/
def wC1 : World :=
  { width := 6, height := 3,
    entities := [⟨1, 1, '@', true⟩, ⟨2, 1, 'E', true⟩],
    game_over := false, win := false }

/-- Scenario C of the spec: pursuer at Manhattan distance 2 from the player. -/
def wC5 : World :=
  { width := 6, height := 3,
    entities := [⟨1, 1, '@', true⟩, ⟨3, 1, 'Q', true⟩],
    game_over := false, win := false }

/-- A small open world for the spawn scenarios: player at (1,1), goal at
(6,2). -/
def w8 : World :=
  { width := 8, height := 4,
    entities := [⟨1, 1, '@', true⟩, ⟨6, 2, 'G', false⟩],
    game_over := false, win := false }

/-- Randomness whose spawn cell (3,1) is adjacent to the player's destination
(2,1); every move choice is "stay". -/
def r8 : Rand :=
  ⟨fun _ => (0, 0), fun _ => (0, 0), (3, 1)⟩

/-! ### Helper lemmas about `modifyAt`, lookups and solidity -/

lemma length_modifyAt (l : List Entity) (i : Nat) (f : Entity → Entity) :
    (modifyAt l i f).length = l.length := by
  induction l generalizing i with
  | nil => rfl
  | cons a rest ih =>
    cases i with
    | zero => rfl
    | succ n => simpa [modifyAt] using ih n

lemma getElem?_modifyAt_self (l : List Entity) (i : Nat) (f : Entity → Entity) :
    (modifyAt l i f)[i]? = (l[i]?).map f := by
  induction l generalizing i with
  | nil => cases i <;> rfl
  | cons a rest ih =>
    cases i with
    | zero => simp [modifyAt]
    | succ n => simpa [modifyAt] using ih n

lemma getElem?_modifyAt_ne (l : List Entity) (i j : Nat) (f : Entity → Entity)
    (h : j ≠ i) : (modifyAt l i f)[j]? = l[j]? := by
  induction l generalizing i j with
  | nil => cases i <;> rfl
  | cons a rest ih =>
    cases i with
    | zero =>
      cases j with
      | zero => exact absurd rfl h
      | succ m => simp [modifyAt]
    | succ n =>
      cases j with
      | zero => simp [modifyAt]
      | succ m =>
        simpa [modifyAt] using ih n m (fun hc => h (by omega))

lemma find?_eq_getElem?_findIdx (p : Entity → Bool) (l : List Entity) :
    l.find? p = l[l.findIdx p]? := by
  induction l with
  | nil => rfl
  | cons a rest ih =>
    rw [List.find?_cons, List.findIdx_cons]
    cases hpa : p a with
    | true => simp
    | false => simpa using ih

lemma char_of_playerIdx (w : World) (p : Entity)
    (h : w.entities[playerIdx w]? = some p) : (p.char == '@') = true := by
  have hf : w.entities.find? (fun e => e.char == '@') = some p := by
    rw [find?_eq_getElem?_findIdx]; exact h
  simpa using List.find?_some hf

lemma charsOf_modifyAt_updPos (l : List Entity) (i : Nat) (nx ny : Int) :
    charsOf (modifyAt l i (updPos nx ny)) = charsOf l := by
  induction l generalizing i with
  | nil => rfl
  | cons a rest ih =>
    cases i with
    | zero => rfl
    | succ n => simpa [modifyAt, charsOf] using ih n

lemma find?_char_modifyAt (l : List Entity) (i : Nat) (nx ny : Int) (c : Char)
    (h : ∀ e, l[i]? = some e → (e.char == c) = false) :
    (modifyAt l i (updPos nx ny)).find? (fun e => e.char == c) =
      l.find? (fun e => e.char == c) := by
  induction l generalizing i with
  | nil => cases i <;> rfl
  | cons a rest ih =>
    cases i with
    | zero =>
      have ha : (a.char == c) = false := h a (by simp)
      rw [modifyAt, List.find?_cons, List.find?_cons]
      have ha' : ((updPos nx ny a).char == c) = false := ha
      rw [ha, ha']
    | succ n =>
      rw [modifyAt, List.find?_cons, List.find?_cons]
      cases hpa : (a.char == c) with
      | true => rfl
      | false => simpa using ih n (fun e he => h e (by simpa using he))

lemma not_solid_entity (w : World) (x y : Int) (h : w.is_solid_at x y = false) :
    ∀ e ∈ w.entities, e.solid = true → ¬(e.x = x ∧ e.y = y) := by
  intro e he hsolid ⟨hx, hy⟩
  have hany : w.entities.any (fun e => e.solid && e.x == x && e.y == y) = false := by
    rw [World.is_solid_at] at h
    simp only [Bool.or_eq_false_iff] at h
    exact h.2
  have := (List.any_eq_false.mp hany) e he
  simp [hsolid, hx, hy] at this

/-! ### Shape lemmas: the possible results of each update step -/

lemma enemyTakeTurn_shape (w : World) (i : Nat) (d : Int × Int) :
    enemyTakeTurn w i d = w ∨ enemyTakeTurn w i d = { w with game_over := true } ∨
      ∃ nx ny, w.is_solid_at nx ny = false ∧ enemyTakeTurn w i d = setPos w i nx ny := by
  rw [enemyTakeTurn]
  cases h : w.entities[i]? with
  | none => exact Or.inl rfl
  | some e =>
    dsimp only
    by_cases hs : w.is_solid_at (e.x + d.1) (e.y + d.2) = true
    · rw [if_pos hs]; exact Or.inl rfl
    · rw [if_neg hs]
      cases hp : w.get_player with
      | none =>
        dsimp only
        exact Or.inr (Or.inr ⟨_, _, by simpa using hs, rfl⟩)
      | some p =>
        dsimp only
        by_cases hc : (p.x == e.x + d.1 && p.y == e.y + d.2) = true
        · rw [if_pos hc]; exact Or.inr (Or.inl rfl)
        · rw [if_neg hc]; exact Or.inr (Or.inr ⟨_, _, by simpa using hs, rfl⟩)

lemma qTakeTurn_shape (w : World) (i : Nat) (pm : Nat) (d : Int × Int) :
    qTakeTurn w i pm d = w ∨ qTakeTurn w i pm d = { w with game_over := true } ∨
      ∃ nx ny, w.is_solid_at nx ny = false ∧
        (qTakeTurn w i pm d = setPos w i nx ny ∨
          qTakeTurn w i pm d = { setPos w i nx ny with game_over := true }) := by
  rw [qTakeTurn]
  cases h : w.entities[i]? with
  | none => exact Or.inl rfl
  | some e =>
    dsimp only
    by_cases hm : pm % Q_MOVE_INTERVAL ≠ 0
    · rw [if_pos hm]; exact Or.inl rfl
    · rw [if_neg hm]
      by_cases hs : w.is_solid_at (e.x + d.1) (e.y + d.2) = true
      · rw [if_pos hs]
        cases hp : w.get_player with
        | none => exact Or.inl rfl
        | some p =>
          dsimp only
          cases h1 : w.entities[i]? with
          | none => exact Or.inl rfl
          | some e1 =>
            dsimp only
            by_cases hd : manhattan e1.x e1.y p.x p.y ≤ Q_RANGE
            · rw [if_pos hd]; exact Or.inr (Or.inl rfl)
            · rw [if_neg hd]; exact Or.inl rfl
      · rw [if_neg hs]
        cases hp : (setPos w i (e.x + d.1) (e.y + d.2)).get_player with
        | none =>
          dsimp only
          exact Or.inr (Or.inr ⟨_, _, by simpa using hs, Or.inl rfl⟩)
        | some p =>
          dsimp only
          cases h1 : (setPos w i (e.x + d.1) (e.y + d.2)).entities[i]? with
          | none =>
            dsimp only
            exact Or.inr (Or.inr ⟨_, _, by simpa using hs, Or.inl rfl⟩)
          | some e1 =>
            dsimp only
            by_cases hd : manhattan e1.x e1.y p.x p.y ≤ Q_RANGE
            · rw [if_pos hd]
              exact Or.inr (Or.inr ⟨_, _, by simpa using hs, Or.inr rfl⟩)
            · rw [if_neg hd]
              exact Or.inr (Or.inr ⟨_, _, by simpa using hs, Or.inl rfl⟩)

lemma spawnStep_shape (w : World) (pm : Nat) (r : Rand) :
    spawnStep w pm r = w ∨
      (pm % Q_SPAWN_INTERVAL = 0 ∧
        w.is_solid_at r.spawnCell.1 r.spawnCell.2 = false ∧
        spawnStep w pm r =
          { w with entities := w.entities ++ [qEnemyEnt r.spawnCell.1 r.spawnCell.2] }) := by
  rw [spawnStep]
  by_cases hm : pm % Q_SPAWN_INTERVAL = 0
  · rw [if_pos hm]
    by_cases hs : w.is_solid_at r.spawnCell.1 r.spawnCell.2 = true
    · rw [if_pos hs]; exact Or.inl rfl
    · rw [if_neg hs]; exact Or.inr ⟨hm, by simpa using hs, rfl⟩
  · rw [if_neg hm]; exact Or.inl rfl

lemma moveStage_shape (w : World) (key : Option Char) :
    (((moveStage w key).1 = w ∨ (moveStage w key).1 = { w with game_over := true } ∨
        (moveStage w key).1 = { w with win := true }) ∧ (moveStage w key).2 = false) ∨
      ∃ p dx dy, toDirection key = (dx, dy) ∧ ¬(dx = 0 ∧ dy = 0) ∧
        w.entities[playerIdx w]? = some p ∧
        (moveStage w key).1 = setPos w (playerIdx w) (p.x + dx) (p.y + dy) ∧
        (moveStage w key).2 = true := by
  rw [moveStage]
  by_cases hd : toDirection key = ((0 : Int), (0 : Int))
  · rw [if_pos hd]; exact Or.inl ⟨Or.inl rfl, rfl⟩
  · rw [if_neg hd]
    cases hp : w.entities[playerIdx w]? with
    | none => exact Or.inl ⟨Or.inl rfl, rfl⟩
    | some p =>
      dsimp only
      have hdd : ¬((toDirection key).1 = 0 ∧ (toDirection key).2 = 0) := by
        intro ⟨h1, h2⟩
        exact hd (Prod.ext h1 h2)
      cases ht : w.get_entity_at (p.x + (toDirection key).1) (p.y + (toDirection key).2) with
      | some t =>
        dsimp only
        by_cases he : (t.char == 'E' || t.char == 'Q') = true
        · rw [if_pos he]; exact Or.inl ⟨Or.inr (Or.inl rfl), rfl⟩
        · rw [if_neg he]
          by_cases hg : (t.char == 'G') = true
          · rw [if_pos hg]; exact Or.inl ⟨Or.inr (Or.inr rfl), rfl⟩
          · rw [if_neg hg]
            by_cases hsolid : (!t.solid) = true
            · rw [if_pos hsolid]
              exact Or.inr ⟨p, _, _, rfl, hdd, rfl, rfl, rfl⟩
            · rw [if_neg hsolid]; exact Or.inl ⟨Or.inl rfl, rfl⟩
      | none =>
        dsimp only
        by_cases hs : w.is_solid_at (p.x + (toDirection key).1) (p.y + (toDirection key).2) = true
        · rw [if_pos hs]; exact Or.inl ⟨Or.inl rfl, rfl⟩
        · rw [if_neg hs]
          exact Or.inr ⟨p, _, _, rfl, hdd, rfl, rfl, rfl⟩

/-! ### Frame lemmas: what each step leaves unchanged -/

lemma charsOf_setPos (w : World) (i : Nat) (nx ny : Int) :
    charsOf (setPos w i nx ny).entities = charsOf w.entities :=
  charsOf_modifyAt_updPos _ _ _ _

lemma length_setPos (w : World) (i : Nat) (nx ny : Int) :
    (setPos w i nx ny).entities.length = w.entities.length :=
  length_modifyAt _ _ _

lemma playerPos_setPos_of_ne (w : World) (i : Nat) (nx ny : Int)
    (h : ∀ e, w.entities[i]? = some e → (e.char == '@') = false) :
    playerPos (setPos w i nx ny) = playerPos w := by
  simp only [playerPos, World.get_player, setPos]
  rw [find?_char_modifyAt _ _ _ _ _ h]

lemma sameFrame_self (w : World) : SameFrame w w :=
  ⟨Eq.refl _, Eq.refl _, Eq.refl _, Eq.refl _⟩

lemma SameFrame.comp {w0 w1 w2 : World} (h1 : SameFrame w0 w1) (h2 : SameFrame w1 w2) :
    SameFrame w0 w2 :=
  ⟨h2.1.trans h1.1, h2.2.1.trans h1.2.1, h2.2.2.1.trans h1.2.2.1, h2.2.2.2.trans h1.2.2.2⟩

lemma sameFrame_setPos (w : World) (i : Nat) (nx ny : Int)
    (h : ∀ e, w.entities[i]? = some e → (e.char == '@') = false) :
    SameFrame w (setPos w i nx ny) :=
  ⟨charsOf_setPos w i nx ny, playerPos_setPos_of_ne w i nx ny h,
    length_setPos w i nx ny, Eq.refl _⟩

lemma sameFrame_flagGO (w : World) : SameFrame w { w with game_over := true } :=
  ⟨Eq.refl _, Eq.refl _, Eq.refl _, Eq.refl _⟩

lemma nonPlayerAt (w : World) (i : Nat) (h : (charsOf w.entities)[i]? ≠ some '@') :
    ∀ e, w.entities[i]? = some e → (e.char == '@') = false := by
  intro e he
  have hc : (charsOf w.entities)[i]? = some e.char := by
    rw [charsOf, List.getElem?_map, he]; rfl
  have : e.char ≠ '@' := fun hq => h (by rw [hc, hq])
  simpa using this

lemma enemyTakeTurn_sameFrame (w : World) (i : Nat) (d : Int × Int)
    (h : (charsOf w.entities)[i]? ≠ some '@') :
    SameFrame w (enemyTakeTurn w i d) := by
  rcases enemyTakeTurn_shape w i d with heq | heq | ⟨nx, ny, _, heq⟩
  · rw [heq]; exact sameFrame_self w
  · rw [heq]; exact sameFrame_flagGO w
  · rw [heq]; exact sameFrame_setPos w i nx ny (nonPlayerAt w i h)

lemma qTakeTurn_sameFrame (w : World) (i : Nat) (pm : Nat) (d : Int × Int)
    (h : (charsOf w.entities)[i]? ≠ some '@') :
    SameFrame w (qTakeTurn w i pm d) := by
  rcases qTakeTurn_shape w i pm d with heq | heq | ⟨nx, ny, _, heq | heq⟩
  · rw [heq]; exact sameFrame_self w
  · rw [heq]; exact sameFrame_flagGO w
  · rw [heq]; exact sameFrame_setPos w i nx ny (nonPlayerAt w i h)
  · rw [heq]
    exact (sameFrame_setPos w i nx ny (nonPlayerAt w i h)).comp
      (sameFrame_flagGO (setPos w i nx ny))

lemma passFold_sameFrame (f : World → Nat → Int × Int → World) (cs : List Char)
    (hf : ∀ w i d, charsOf w.entities = cs → cs[i]? ≠ some '@' → SameFrame w (f w i d)) :
    ∀ (pairs : List (Nat × (Int × Int))) (w : World), charsOf w.entities = cs →
      (∀ pr ∈ pairs, cs[pr.1]? ≠ some '@') → SameFrame w (passFold f w pairs) := by
  intro pairs
  induction pairs with
  | nil => intro w _ _; exact sameFrame_self w
  | cons pr rest ih =>
    intro w hcs hall
    have h1 : SameFrame w (f w pr.1 pr.2) :=
      hf w pr.1 pr.2 hcs (hall pr (List.mem_cons_self pr rest))
    have hcs' : charsOf (f w pr.1 pr.2).entities = cs := h1.1.trans hcs
    have h2 := ih (f w pr.1 pr.2) hcs' (fun q hq => hall q (List.mem_cons_of_mem pr hq))
    exact h1.comp h2

lemma withChoices_fst_mem (idxs : List Nat) (r : Nat → Int × Int) (k : Nat)
    (pr : Nat × (Int × Int)) (h : pr ∈ withChoices idxs r k) : pr.1 ∈ idxs := by
  induction idxs generalizing k with
  | nil => simp [withChoices] at h
  | cons i rest ih =>
    rw [withChoices] at h
    rcases List.mem_cons.mp h with heq | hmem
    · rw [heq]; exact List.mem_cons_self i rest
    · exact List.mem_cons_of_mem i (ih (k + 1) hmem)

lemma mem_idxsWithChar (c : Char) (l : List Entity) (i : Nat)
    (h : i ∈ idxsWithChar c l) : ∃ e, l[i]? = some e ∧ e.char = c := by
  rw [idxsWithChar] at h
  have hpred := (List.mem_filter.mp h).2
  cases he : l[i]? with
  | none => rw [he] at hpred; simp at hpred
  | some e =>
    rw [he] at hpred
    exact ⟨e, rfl, by simpa using hpred⟩

lemma ePass_sameFrame (w : World) (r : Rand) : SameFrame w (ePass w r) := by
  apply passFold_sameFrame enemyTakeTurn (charsOf w.entities) ?_ _ w (Eq.refl _) ?_
  · intro w' i d hcs hi
    rw [← hcs] at hi
    exact enemyTakeTurn_sameFrame w' i d hi
  · intro pr hpr
    have hmem := withChoices_fst_mem _ _ _ _ hpr
    obtain ⟨e, he, hc⟩ := mem_idxsWithChar 'E' w.entities pr.1 hmem
    intro hcontra
    have : (charsOf w.entities)[pr.1]? = some e.char := by
      rw [charsOf, List.getElem?_map, he]; rfl
    rw [this] at hcontra
    have : e.char = '@' := by injection hcontra
    rw [hc] at this
    exact absurd this (by decide)

lemma qPass_sameFrame (w : World) (pm : Nat) (r : Rand) : SameFrame w (qPass w pm r) := by
  apply passFold_sameFrame _ (charsOf w.entities) ?_ _ w (Eq.refl _) ?_
  · intro w' i d hcs hi
    rw [← hcs] at hi
    exact qTakeTurn_sameFrame w' i pm d hi
  · intro pr hpr
    have hmem := withChoices_fst_mem _ _ _ _ hpr
    obtain ⟨e, he, hc⟩ := mem_idxsWithChar 'Q' w.entities pr.1 hmem
    intro hcontra
    have : (charsOf w.entities)[pr.1]? = some e.char := by
      rw [charsOf, List.getElem?_map, he]; rfl
    rw [this] at hcontra
    have : e.char = '@' := by injection hcontra
    rw [hc] at this
    exact absurd this (by decide)

lemma spawnStep_playerPos (w : World) (pm : Nat) (r : Rand) :
    playerPos (spawnStep w pm r) = playerPos w := by
  rcases spawnStep_shape w pm r with heq | ⟨_, _, heq⟩
  · rw [heq]
  · rw [heq]
    simp only [playerPos, World.get_player, List.find?_append]
    have : List.find? (fun e => e.char == '@') [qEnemyEnt r.spawnCell.1 r.spawnCell.2] = none :=
      rfl
    rw [this, Option.or_none]

lemma spawnStep_win (w : World) (pm : Nat) (r : Rand) :
    (spawnStep w pm r).win = w.win := by
  rcases spawnStep_shape w pm r with heq | ⟨_, _, heq⟩ <;> rw [heq]

lemma spawnStep_game_over (w : World) (pm : Nat) (r : Rand) :
    (spawnStep w pm r).game_over = w.game_over := by
  rcases spawnStep_shape w pm r with heq | ⟨_, _, heq⟩ <;> rw [heq]

lemma afterMove_playerPos (w : World) (pm : Nat) (r : Rand) :
    playerPos (afterMove w pm r) = playerPos w := by
  rw [afterMove, spawnStep_playerPos]
  exact ((ePass_sameFrame w r).comp (qPass_sameFrame (ePass w r) pm r)).2.1

lemma afterMove_win (w : World) (pm : Nat) (r : Rand) :
    (afterMove w pm r).win = w.win := by
  rw [afterMove, spawnStep_win]
  exact ((ePass_sameFrame w r).comp (qPass_sameFrame (ePass w r) pm r)).2.2.2

lemma findIdx_char_eq_of_charsOf (l l' : List Entity) (c : Char)
    (h : charsOf l = charsOf l') :
    l.findIdx (fun e => e.char == c) = l'.findIdx (fun e => e.char == c) := by
  induction l generalizing l' with
  | nil =>
    cases l' with
    | nil => rfl
    | cons b m => simp [charsOf] at h
  | cons a rest ih =>
    cases l' with
    | nil => simp [charsOf] at h
    | cons b m =>
      simp only [charsOf, List.map_cons, List.cons.injEq] at h
      rw [List.findIdx_cons, List.findIdx_cons, h.1, ih m h.2]

lemma playerPos_eq_of_playerIdx (w : World) (p : Entity)
    (h : w.entities[playerIdx w]? = some p) :
    playerPos w = some (p.x, p.y) := by
  show ((w.entities.find? (fun e => e.char == '@')).map (fun e => (e.x, e.y))) = _
  rw [find?_eq_getElem?_findIdx]
  show ((w.entities[playerIdx w]?).map (fun e => (e.x, e.y))) = _
  rw [h]
  rfl

lemma playerPos_setPos_player (w : World) (p : Entity) (nx ny : Int)
    (h : w.entities[playerIdx w]? = some p) :
    playerPos (setPos w (playerIdx w) nx ny) = some (nx, ny) := by
  show (((setPos w (playerIdx w) nx ny).entities.find? (fun e => e.char == '@')).map
    (fun e => (e.x, e.y))) = _
  rw [find?_eq_getElem?_findIdx]
  have hidx : (setPos w (playerIdx w) nx ny).entities.findIdx (fun e => e.char == '@') =
      playerIdx w :=
    findIdx_char_eq_of_charsOf _ _ '@' (charsOf_setPos w (playerIdx w) nx ny)
  rw [hidx]
  show ((modifyAt w.entities (playerIdx w) (updPos nx ny))[playerIdx w]?).map
    (fun e => (e.x, e.y)) = _
  rw [getElem?_modifyAt_self, h]
  rfl

/-! ### Win-flag lemmas -/

lemma enemyTakeTurn_win (w : World) (i : Nat) (d : Int × Int) :
    (enemyTakeTurn w i d).win = w.win := by
  rcases enemyTakeTurn_shape w i d with heq | heq | ⟨nx, ny, _, heq⟩ <;> (rw [heq]; try rfl)

lemma qTakeTurn_win (w : World) (i : Nat) (pm : Nat) (d : Int × Int) :
    (qTakeTurn w i pm d).win = w.win := by
  rcases qTakeTurn_shape w i pm d with heq | heq | ⟨nx, ny, _, heq | heq⟩ <;> (rw [heq]; try rfl)

lemma moveStage_win_eq (w : World) (key : Option Char) :
    (moveStage w key).1.win = (w.win || goalHit w key) := by
  rw [moveStage, goalHit]
  by_cases hd : toDirection key = ((0 : Int), (0 : Int))
  · rw [if_pos hd, if_pos hd]; simp
  · rw [if_neg hd, if_neg hd]
    cases hp : w.entities[playerIdx w]? with
    | none => simp
    | some p =>
      dsimp only
      cases ht : w.get_entity_at (p.x + (toDirection key).1) (p.y + (toDirection key).2) with
      | none =>
        dsimp only
        by_cases hs :
            w.is_solid_at (p.x + (toDirection key).1) (p.y + (toDirection key).2) = true
        · rw [if_pos hs]; simp
        · rw [if_neg hs]; simp [setPos]
      | some t =>
        dsimp only
        by_cases he : (t.char == 'E' || t.char == 'Q') = true
        · rw [if_pos he]; simp [he]
        · rw [if_neg he]
          by_cases hg : (t.char == 'G') = true
          · rw [if_pos hg]; simp [he, hg]
          · rw [if_neg hg]
            by_cases hsolid : (!t.solid) = true
            · rw [if_pos hsolid]; simp [setPos, he, hg]
            · rw [if_neg hsolid]; simp [he, hg]

lemma tick_eq_branches (w : World) (pm : Nat) (key : Option Char) (r : Rand) :
    tick w pm key r =
      if (moveStage w key).2 then (afterMove (moveStage w key).1 (pm + 1) r, pm + 1)
      else ((moveStage w key).1, pm) :=
  rfl

lemma tick_win_eq (w : World) (pm : Nat) (key : Option Char) (r : Rand) :
    (tick w pm key r).1.win = (w.win || goalHit w key) := by
  rw [tick_eq_branches]
  by_cases hm : (moveStage w key).2 = true
  · rw [if_pos hm]
    dsimp only
    rw [afterMove_win, moveStage_win_eq]
  · rw [if_neg hm]
    exact moveStage_win_eq w key

/-! ### Claims -/

/-- C1: the claim says a roamer whose randomly chosen destination equals the
player's position immediately sets the lost flag.  The code evaluates
otherwise: with the player at (1,1) and the roamer at (2,1), the delta (-1,0)
makes the destination the player's exact cell, yet `Enemy.take_turn` leaves
the world (and its `game_over` flag) unchanged, because the player is solid
and the solidity early-return fires before the dead player-collision branch. -/
theorem c1_roamer_collision_not_lethal :
    wC1.get_player = some ⟨1, 1, '@', true⟩ ∧
      wC1.entities[1]? = some ⟨2, 1, 'E', true⟩ ∧
      enemyTakeTurn wC1 1 ((-1 : Int), (0 : Int)) = wC1 ∧
      (enemyTakeTurn wC1 1 ((-1 : Int), (0 : Int))).game_over = false := by
  decide

/-- C2 counterexample: in Scenario A (12×3 world, player at (1,1), wall line
at y = 2, goal at (9,1), no enemies), eight Right inputs do end with `win`
set, but the player is not at (9,1): the code never moves the player onto the
goal cell. -/
theorem c2_scenarioA_not_at_goal :
    ¬(scenarioARun.1.win = true ∧ playerPos scenarioARun.1 = some (9, 1)) := by
  decide

/-- C2 amended: eight Right inputs in Scenario A set `win` with the player at
(8,1) — one cell short of the goal, since the win branch does not perform the
displacement — and the move counter at 7. -/
theorem c2_scenarioA_won_at_8_1 :
    scenarioARun.1.win = true ∧ playerPos scenarioARun.1 = some (8, 1) ∧
      scenarioARun.2 = 7 := by
  decide

/-- C6: a pursuer activation with an odd move counter is a complete no-op:
the returned world (entities, positions, both flags) is exactly the input
world. -/
theorem c6_qenemy_noop_when_odd (w : World) (i : Nat) (pm : Nat) (d : Int × Int)
    (h : pm % Q_MOVE_INTERVAL ≠ 0) : qTakeTurn w i pm d = w := by
  rw [qTakeTurn]
  cases hei : w.entities[i]? with
  | none => rfl
  | some e =>
    dsimp only
    rw [if_pos h]

/-- C6 witness: at the concrete odd counter 1 the pursuer of `wC5` does
nothing. -/
theorem c6_witness : qTakeTurn wC5 1 1 ((1 : Int), (0 : Int)) = wC5 :=
  c6_qenemy_noop_when_odd wC5 1 1 ((1 : Int), (0 : Int)) (by decide)

/-- C9: an input symbol that decodes to no direction (the `None` symbol or
any non-directional key) leaves the whole session state — world, entities,
flags and move counter — unchanged. -/
theorem c9_none_input_identity (w : World) (pm : Nat) (key : Option Char) (r : Rand)
    (h : toDirection key = (0, 0)) : tick w pm key r = (w, pm) := by
  have hm : moveStage w key = (w, false) := by
    rw [moveStage, if_pos h]
  rw [tick_eq_branches, hm]
  rfl

/-- C9 witness: the non-directional key `'x'` is an identity on a concrete
session state. -/
theorem c9_witness : tick wC1 5 (some 'x') trivRand = (wC1, 5) :=
  c9_none_input_identity wC1 5 (some 'x') trivRand (by decide)

/-- C10: the win flag is set only by the player's own move resolving onto the
goal entity's cell: roamer activations, pursuer activations and the spawn
step never modify `win`, and a full turn sets `win` exactly when the player's
target is the goal. -/
theorem c10_win_only_by_goal_move :
    (∀ (w : World) (i : Nat) (d : Int × Int), (enemyTakeTurn w i d).win = w.win) ∧
      (∀ (w : World) (i pm : Nat) (d : Int × Int), (qTakeTurn w i pm d).win = w.win) ∧
      (∀ (w : World) (pm : Nat) (r : Rand), (spawnStep w pm r).win = w.win) ∧
      (∀ (w : World) (pm : Nat) (key : Option Char) (r : Rand),
        (tick w pm key r).1.win = (w.win || goalHit w key)) :=
  ⟨enemyTakeTurn_win, qTakeTurn_win, spawnStep_win, tick_win_eq⟩

/-- C5: on a pursuer activation with an even move counter, once the move
attempt has resolved, a Manhattan distance of at most `Q_RANGE` between the
pursuer's (post-move) position and the player's position forces the lost
flag. -/
theorem c5_qenemy_range_detection (w : World) (i : Nat) (pm : Nat) (d : Int × Int)
    (e1 p : Entity) (hpm : pm % Q_MOVE_INTERVAL = 0)
    (he : (qTakeTurn w i pm d).entities[i]? = some e1)
    (hp : (qTakeTurn w i pm d).get_player = some p)
    (hd : manhattan e1.x e1.y p.x p.y ≤ Q_RANGE) :
    (qTakeTurn w i pm d).game_over = true := by
  rw [qTakeTurn] at he hp ⊢
  cases hei : w.entities[i]? with
  | none =>
    rw [hei] at he
    dsimp only at he
    rw [hei] at he
    exact Option.noConfusion he
  | some e =>
    rw [hei] at he hp
    dsimp only at he hp ⊢
    rw [if_neg (fun hne => hne hpm)] at he hp ⊢
    cases hgp :
        (if w.is_solid_at (e.x + d.1) (e.y + d.2) = true then w
          else setPos w i (e.x + d.1) (e.y + d.2)).get_player with
    | none =>
      rw [hgp] at hp
      dsimp only at hp
      rw [hgp] at hp
      exact Option.noConfusion hp
    | some p0 =>
      rw [hgp] at he hp
      dsimp only at he hp ⊢
      cases he1 :
          (if w.is_solid_at (e.x + d.1) (e.y + d.2) = true then w
            else setPos w i (e.x + d.1) (e.y + d.2)).entities[i]? with
      | none =>
        rw [he1] at he
        dsimp only at he
        rw [he1] at he
        exact Option.noConfusion he
      | some ee =>
        rw [he1] at he hp
        dsimp only at he hp ⊢
        by_cases hdist : manhattan ee.x ee.y p0.x p0.y ≤ Q_RANGE
        · rw [if_pos hdist]
        · rw [if_neg hdist] at he hp
          rw [he1] at he
          injection he with hee
          rw [hgp] at hp
          injection hp with hpp
          rw [← hee, ← hpp] at hd
          exact absurd hd hdist

/-- C5 witness (Scenario C): a stationary pursuer at Manhattan distance
exactly 2 from the player, on an activation with an even move counter, sets
the lost flag. -/
theorem c5_witness : (qTakeTurn wC5 1 2 ((0 : Int), (0 : Int))).game_over = true :=
  c5_qenemy_range_detection wC5 1 2 ((0 : Int), (0 : Int)) ⟨3, 1, 'Q', true⟩
    ⟨1, 1, '@', true⟩ (by decide) (by decide) (by decide) (by decide)

/-- C4: in every processed turn the move counter grows by exactly 0 or 1,
and it grows exactly when the player's coordinates differ before versus after
the turn. -/
theorem c4_moves_iff_displacement (w : World) (pm : Nat) (key : Option Char) (r : Rand) :
    ((tick w pm key r).2 = pm ∨ (tick w pm key r).2 = pm + 1) ∧
      ((tick w pm key r).2 = pm + 1 ↔ playerPos (tick w pm key r).1 ≠ playerPos w) := by
  rw [tick_eq_branches]
  rcases moveStage_shape w key with ⟨hshape, hmv⟩ | ⟨p, dx, dy, hdir, hdd, hp, hw1, hmv⟩
  · have hcond : ¬((moveStage w key).2 = true) := by rw [hmv]; exact Bool.false_ne_true
    rw [if_neg hcond]
    dsimp only
    refine ⟨Or.inl rfl, ?_, ?_⟩
    · intro h
      omega
    · intro hne
      exfalso
      apply hne
      rcases hshape with h1 | h1 | h1 <;> (rw [h1]; try rfl)
  · rw [if_pos hmv]
    dsimp only
    have hpp : playerPos (afterMove (moveStage w key).1 (pm + 1) r) =
        some (p.x + dx, p.y + dy) := by
      rw [afterMove_playerPos, hw1]
      exact playerPos_setPos_player w p (p.x + dx) (p.y + dy) hp
    have hw : playerPos w = some (p.x, p.y) := playerPos_eq_of_playerIdx w p hp
    have hneq : ((p.x + dx, p.y + dy) : Int × Int) ≠ (p.x, p.y) := by
      intro hcontra
      rw [Prod.mk.injEq] at hcontra
      exact hdd ⟨by omega, by omega⟩
    refine ⟨Or.inr rfl, ?_, fun _ => rfl⟩
    intro _
    rw [hpp, hw]
    intro hcontra
    exact hneq (by injection hcontra)

/-- C4 witness: a successful Right move from a concrete state increments the
counter from 0 to 1 and changes the player's position. -/
theorem c4_witness :
    playerPos (tick w8 0 (some 'd') r8).1 ≠ playerPos w8 :=
  (c4_moves_iff_displacement w8 0 (some 'd') r8).2.mp (by decide)

lemma moveStage_length (w : World) (key : Option Char) :
    (moveStage w key).1.entities.length = w.entities.length := by
  rcases moveStage_shape w key with ⟨hs, _⟩ | ⟨p, dx, dy, _, _, _, hw1, _⟩
  · rcases hs with h | h | h <;> (rw [h]; try rfl)
  · rw [hw1]
    exact length_setPos w (playerIdx w) (p.x + dx) (p.y + dy)

lemma tick_fst_eq (w : World) (pm : Nat) (key : Option Char) (r : Rand) :
    (tick w pm key r).1 =
      if (moveStage w key).2 then spawnStep (preSpawn w pm key r) (pm + 1) r
      else preSpawn w pm key r := by
  rw [tick_eq_branches, preSpawn]
  by_cases hm : (moveStage w key).2 = true
  · simp only [hm, if_true]
    rfl
  · simp only [Bool.not_eq_true] at hm
    simp only [hm, Bool.false_eq_true, if_false]

lemma tick_snd_eq (w : World) (pm : Nat) (key : Option Char) (r : Rand) :
    (tick w pm key r).2 = if (moveStage w key).2 then pm + 1 else pm := by
  rw [tick_eq_branches]
  by_cases hm : (moveStage w key).2 = true
  · simp only [hm, if_true]
  · simp only [Bool.not_eq_true] at hm
    simp only [hm, Bool.false_eq_true, if_false]

lemma preSpawn_length (w : World) (pm : Nat) (key : Option Char) (r : Rand) :
    (preSpawn w pm key r).entities.length = w.entities.length := by
  rw [preSpawn]
  by_cases hm : (moveStage w key).2 = true
  · simp only [hm, if_true]
    have h1 := (ePass_sameFrame (moveStage w key).1 r).2.2.1
    have h2 := (qPass_sameFrame (ePass (moveStage w key).1 r) (pm + 1) r).2.2.1
    rw [h2, h1, moveStage_length]
  · simp only [Bool.not_eq_true] at hm
    simp only [hm, Bool.false_eq_true, if_false]
    exact moveStage_length w key

lemma spawnStep_length_eq (w : World) (pm : Nat) (r : Rand) :
    (spawnStep w pm r).entities.length =
      if pm % Q_SPAWN_INTERVAL = 0 ∧ w.is_solid_at r.spawnCell.1 r.spawnCell.2 = false
      then w.entities.length + 1 else w.entities.length := by
  rw [spawnStep]
  by_cases hm : pm % Q_SPAWN_INTERVAL = 0
  · rw [if_pos hm]
    by_cases hs : w.is_solid_at r.spawnCell.1 r.spawnCell.2 = true
    · rw [if_pos hs, if_neg (by simp [hs])]
    · rw [if_neg hs, if_pos ⟨hm, by simpa using hs⟩]
      simp
  · rw [if_neg hm, if_neg (fun hc => hm hc.1)]

/-- C7: at most one entity is added per turn, an entity is added exactly when
a successful player displacement takes the incremented counter to a multiple
of `Q_SPAWN_INTERVAL` and the randomly chosen cell is not solid, and the
added entity is a pursuer at that cell. -/
theorem c7_spawn_iff (w : World) (pm : Nat) (key : Option Char) (r : Rand) :
    ((tick w pm key r).1.entities.length = w.entities.length ∨
        (tick w pm key r).1.entities.length = w.entities.length + 1) ∧
      ((tick w pm key r).1.entities.length = w.entities.length + 1 ↔
        ((moveStage w key).2 = true ∧ (tick w pm key r).2 % Q_SPAWN_INTERVAL = 0 ∧
          (preSpawn w pm key r).is_solid_at r.spawnCell.1 r.spawnCell.2 = false)) ∧
      ((tick w pm key r).1.entities.length = w.entities.length + 1 →
        (tick w pm key r).1.entities[w.entities.length]? =
          some (qEnemyEnt r.spawnCell.1 r.spawnCell.2)) := by
  have hpl := preSpawn_length w pm key r
  rw [tick_fst_eq, tick_snd_eq]
  by_cases hm : (moveStage w key).2 = true
  · rw [if_pos hm, if_pos hm, spawnStep_length_eq]
    by_cases hcond : (pm + 1) % Q_SPAWN_INTERVAL = 0 ∧
        (preSpawn w pm key r).is_solid_at r.spawnCell.1 r.spawnCell.2 = false
    · rw [if_pos hcond, hpl]
      refine ⟨Or.inr rfl, iff_of_true rfl ⟨hm, hcond.1, hcond.2⟩, fun _ => ?_⟩
      rcases spawnStep_shape (preSpawn w pm key r) (pm + 1) r with h | ⟨_, _, h⟩
      · exfalso
        have hlen := spawnStep_length_eq (preSpawn w pm key r) (pm + 1) r
        rw [if_pos hcond, h, hpl] at hlen
        omega
      · rw [h]
        show ((preSpawn w pm key r).entities ++ [qEnemyEnt r.spawnCell.1 r.spawnCell.2])[w.entities.length]? = _
        rw [← hpl]
        exact List.getElem?_concat_length _ _
    · rw [if_neg hcond, hpl]
      refine ⟨Or.inl rfl, iff_of_false (by omega) ?_, fun hfalse => by omega⟩
      intro ⟨_, h2, h3⟩
      exact hcond ⟨h2, h3⟩
  · rw [if_neg hm, if_neg hm]
    simp only [Bool.not_eq_true] at hm
    refine ⟨Or.inl hpl, iff_of_false (by omega) ?_, fun hfalse => by omega⟩
    intro ⟨h1, _, _⟩
    rw [hm] at h1
    exact Bool.false_ne_true h1

/-- C7 witness: at counter 9, a successful move takes the counter to 10 and
exactly one pursuer is added to the collection. -/
theorem c7_witness :
    (tick w8 9 (some 'd') r8).1.entities.length = w8.entities.length + 1 :=
  (c7_spawn_iff w8 9 (some 'd') r8).2.1.mpr ⟨by decide, by decide, by decide⟩

/-- C8: the spawn step only appends.  Relative to the engine state just
before the spawn step (after the player action and both activation passes),
a full turn leaves both terminal flags and every existing entity unchanged,
and when it does add an entity, that entity is a pursuer sitting exactly at
its randomly chosen spawn cell — so a pursuer spawned this turn has neither
moved nor run its detection check this turn. -/
theorem c8_spawned_pursuer_inert (w : World) (pm : Nat) (key : Option Char) (r : Rand) :
    (tick w pm key r).1.game_over = (preSpawn w pm key r).game_over ∧
      (tick w pm key r).1.win = (preSpawn w pm key r).win ∧
      (∀ j, j < (preSpawn w pm key r).entities.length →
        (tick w pm key r).1.entities[j]? = (preSpawn w pm key r).entities[j]?) ∧
      ((preSpawn w pm key r).entities.length < (tick w pm key r).1.entities.length →
        (tick w pm key r).1.entities[(preSpawn w pm key r).entities.length]? =
          some (qEnemyEnt r.spawnCell.1 r.spawnCell.2)) := by
  rw [tick_fst_eq]
  by_cases hm : (moveStage w key).2 = true
  · rw [if_pos hm]
    rcases spawnStep_shape (preSpawn w pm key r) (pm + 1) r with h | ⟨_, _, h⟩
    · rw [h]
      exact ⟨rfl, rfl, fun j _ => rfl, fun hlt => absurd hlt (lt_irrefl _)⟩
    · rw [h]
      refine ⟨rfl, rfl, fun j hj => ?_, fun _ => ?_⟩
      · show ((preSpawn w pm key r).entities ++ _)[j]? = _
        rw [List.getElem?_append]
        rw [if_pos hj]
      · show ((preSpawn w pm key r).entities ++ _)[(preSpawn w pm key r).entities.length]? = _
        exact List.getElem?_concat_length _ _
  · rw [if_neg hm]
    exact ⟨rfl, rfl, fun j _ => rfl, fun hlt => absurd hlt (lt_irrefl _)⟩

/-- C8 witness: the turn from counter 9 spawns a pursuer adjacent to the
player (Manhattan distance 1), yet the turn ends with the lost flag still
false and the new pursuer exactly at its spawn cell — it did not activate. -/
theorem c8_witness :
    (tick w8 9 (some 'd') r8).1.entities[2]? = some (qEnemyEnt 3 1) ∧
      (tick w8 9 (some 'd') r8).1.game_over = false := by
  have h := c8_spawned_pursuer_inert w8 9 (some 'd') r8
  constructor
  · have h4 := h.2.2.2 (by decide)
    have hlen : (preSpawn w8 9 (some 'd') r8).entities.length = 2 := by decide
    rw [hlen] at h4
    exact h4
  · rw [h.1]
    decide

/-! ### The stacking invariant (C3) -/

lemma not_solid_entity_idx (w : World) (x y : Int) (h : w.is_solid_at x y = false)
    (j : Nat) (e : Entity) (hj : w.entities[j]? = some e) (hs : e.solid = true) :
    ¬(e.x = x ∧ e.y = y) :=
  not_solid_entity w x y h e (List.getElem?_mem hj) hs

lemma enemySolid_modifyAt_updPos (l : List Entity) (i : Nat) (nx ny : Int)
    (h : EnemySolid l) : EnemySolid (modifyAt l i (updPos nx ny)) := by
  intro j e hj hc
  by_cases hji : j = i
  · subst hji
    rw [getElem?_modifyAt_self] at hj
    cases he : l[j]? with
    | none => rw [he] at hj; exact absurd hj (by simp)
    | some e0 =>
      rw [he] at hj
      have : updPos nx ny e0 = e := by injection hj
      rw [← this]
      rw [← this] at hc
      exact h j e0 he hc
  · rw [getElem?_modifyAt_ne _ _ _ _ hji] at hj
    exact h j e hj hc

lemma noStack_setPos_move (w : World) (i : Nat) (nx ny : Int)
    (hsolid : w.is_solid_at nx ny = false)
    (hES : EnemySolid w.entities) (hNS : NoStack w.entities) :
    NoStack (setPos w i nx ny).entities := by
  have hNoEnemyAt : ∀ (j : Nat) (e : Entity), w.entities[j]? = some e →
      isEnemyChar e.char = true → ¬(e.x = nx ∧ e.y = ny) := by
    intro j e hj hc
    exact not_solid_entity_idx w nx ny hsolid j e hj (hES j e hj hc)
  intro a b e1 e2 hab h1 h2 hc1 hc2 hpos
  by_cases hai : a = i
  · subst hai
    have hbi : b ≠ a := by omega
    rw [show (setPos w a nx ny).entities = modifyAt w.entities a (updPos nx ny) from rfl] at h1 h2
    rw [getElem?_modifyAt_self] at h1
    rw [getElem?_modifyAt_ne _ _ _ _ hbi] at h2
    cases he : w.entities[a]? with
    | none => rw [he] at h1; exact absurd h1 (by simp)
    | some e0 =>
      rw [he] at h1
      have he1 : updPos nx ny e0 = e1 := by injection h1
      have hx1 : e1.x = nx := by rw [← he1]; rfl
      have hy1 : e1.y = ny := by rw [← he1]; rfl
      exact hNoEnemyAt b e2 h2 hc2 ⟨by rw [← hpos.1, hx1], by rw [← hpos.2, hy1]⟩
  · by_cases hbi : b = i
    · subst hbi
      rw [show (setPos w b nx ny).entities = modifyAt w.entities b (updPos nx ny) from rfl] at h1 h2
      rw [getElem?_modifyAt_self] at h2
      rw [getElem?_modifyAt_ne _ _ _ _ hai] at h1
      cases he : w.entities[b]? with
      | none => rw [he] at h2; exact absurd h2 (by simp)
      | some e0 =>
        rw [he] at h2
        have he2 : updPos nx ny e0 = e2 := by injection h2
        have hx2 : e2.x = nx := by rw [← he2]; rfl
        have hy2 : e2.y = ny := by rw [← he2]; rfl
        exact hNoEnemyAt a e1 h1 hc1 ⟨by rw [hpos.1, hx2], by rw [hpos.2, hy2]⟩
    · rw [show (setPos w i nx ny).entities = modifyAt w.entities i (updPos nx ny) from rfl] at h1 h2
      rw [getElem?_modifyAt_ne _ _ _ _ hai] at h1
      rw [getElem?_modifyAt_ne _ _ _ _ hbi] at h2
      exact hNS a b e1 e2 hab h1 h2 hc1 hc2 hpos

lemma noStack_setPos_nonenemy (w : World) (i : Nat) (nx ny : Int)
    (hch : ∀ e, w.entities[i]? = some e → isEnemyChar e.char = false)
    (hNS : NoStack w.entities) : NoStack (setPos w i nx ny).entities := by
  intro a b e1 e2 hab h1 h2 hc1 hc2 hpos
  by_cases hai : a = i
  · subst hai
    rw [show (setPos w a nx ny).entities = modifyAt w.entities a (updPos nx ny) from rfl] at h1
    rw [getElem?_modifyAt_self] at h1
    cases he : w.entities[a]? with
    | none => rw [he] at h1; exact absurd h1 (by simp)
    | some e0 =>
      rw [he] at h1
      have he1 : updPos nx ny e0 = e1 := by injection h1
      have : isEnemyChar e1.char = false := by rw [← he1]; exact hch e0 he
      rw [hc1] at this
      exact absurd this (by simp)
  · by_cases hbi : b = i
    · subst hbi
      rw [show (setPos w b nx ny).entities = modifyAt w.entities b (updPos nx ny) from rfl] at h2
      rw [getElem?_modifyAt_self] at h2
      cases he : w.entities[b]? with
      | none => rw [he] at h2; exact absurd h2 (by simp)
      | some e0 =>
        rw [he] at h2
        have he2 : updPos nx ny e0 = e2 := by injection h2
        have : isEnemyChar e2.char = false := by rw [← he2]; exact hch e0 he
        rw [hc2] at this
        exact absurd this (by simp)
    · rw [show (setPos w i nx ny).entities = modifyAt w.entities i (updPos nx ny) from rfl] at h1 h2
      rw [getElem?_modifyAt_ne _ _ _ _ hai] at h1
      rw [getElem?_modifyAt_ne _ _ _ _ hbi] at h2
      exact hNS a b e1 e2 hab h1 h2 hc1 hc2 hpos

lemma inv_enemyTakeTurn (w : World) (i : Nat) (d : Int × Int) (h : Inv w) :
    Inv (enemyTakeTurn w i d) := by
  rcases enemyTakeTurn_shape w i d with heq | heq | ⟨nx, ny, hs, heq⟩ <;> rw [heq]
  · exact h
  · exact h
  · exact ⟨enemySolid_modifyAt_updPos _ _ _ _ h.1, noStack_setPos_move w i nx ny hs h.1 h.2⟩

lemma inv_qTakeTurn (w : World) (i : Nat) (pm : Nat) (d : Int × Int) (h : Inv w) :
    Inv (qTakeTurn w i pm d) := by
  rcases qTakeTurn_shape w i pm d with heq | heq | ⟨nx, ny, hs, heq | heq⟩ <;> rw [heq]
  · exact h
  · exact h
  · exact ⟨enemySolid_modifyAt_updPos _ _ _ _ h.1, noStack_setPos_move w i nx ny hs h.1 h.2⟩
  · exact ⟨enemySolid_modifyAt_updPos _ _ _ _ h.1, noStack_setPos_move w i nx ny hs h.1 h.2⟩

lemma inv_moveStage (w : World) (key : Option Char) (h : Inv w) :
    Inv (moveStage w key).1 := by
  rcases moveStage_shape w key with ⟨hs, _⟩ | ⟨p, dx, dy, _, _, hp, hw1, _⟩
  · rcases hs with heq | heq | heq <;> rw [heq] <;> exact h
  · rw [hw1]
    have hch : ∀ e, w.entities[playerIdx w]? = some e → isEnemyChar e.char = false := by
      intro e he
      have hc := char_of_playerIdx w e he
      have : e.char = '@' := by simpa using hc
      rw [isEnemyChar, this]
      decide
    exact ⟨enemySolid_modifyAt_updPos _ _ _ _ h.1,
      noStack_setPos_nonenemy w (playerIdx w) _ _ hch h.2⟩

lemma inv_passFold (f : World → Nat → Int × Int → World)
    (hf : ∀ w i d, Inv w → Inv (f w i d)) :
    ∀ (pairs : List (Nat × (Int × Int))) (w : World), Inv w → Inv (passFold f w pairs) := by
  intro pairs
  induction pairs with
  | nil => intro w h; exact h
  | cons pr rest ih => intro w h; exact ih (f w pr.1 pr.2) (hf w pr.1 pr.2 h)

lemma inv_spawnStep (w : World) (pm : Nat) (r : Rand) (h : Inv w) :
    Inv (spawnStep w pm r) := by
  rcases spawnStep_shape w pm r with heq | ⟨_, hs, heq⟩ <;> rw [heq]
  · exact h
  · constructor
    · intro j e hj hc
      rw [show ({ w with entities := w.entities ++ [qEnemyEnt r.spawnCell.1 r.spawnCell.2] } :
          World).entities = w.entities ++ [qEnemyEnt r.spawnCell.1 r.spawnCell.2] from rfl] at hj
      rw [List.getElem?_append] at hj
      by_cases hjl : j < w.entities.length
      · rw [if_pos hjl] at hj
        exact h.1 j e hj hc
      · rw [if_neg hjl] at hj
        cases hje : j - w.entities.length with
        | zero =>
          rw [hje] at hj
          have : qEnemyEnt r.spawnCell.1 r.spawnCell.2 = e := by
            simpa using hj
          rw [← this]
          rfl
        | succ n =>
          rw [hje] at hj
          exact absurd hj (by simp)
    · intro a b e1 e2 hab h1 h2 hc1 hc2 hpos
      rw [show ({ w with entities := w.entities ++ [qEnemyEnt r.spawnCell.1 r.spawnCell.2] } :
          World).entities = w.entities ++ [qEnemyEnt r.spawnCell.1 r.spawnCell.2] from rfl] at h1 h2
      rw [List.getElem?_append] at h1 h2
      by_cases hbl : b < w.entities.length
      · have hal : a < w.entities.length := by omega
        rw [if_pos hal] at h1
        rw [if_pos hbl] at h2
        exact h.2 a b e1 e2 hab h1 h2 hc1 hc2 hpos
      · rw [if_neg hbl] at h2
        by_cases hal : a < w.entities.length
        · rw [if_pos hal] at h1
          cases hbe : b - w.entities.length with
          | zero =>
            rw [hbe] at h2
            have he2 : qEnemyEnt r.spawnCell.1 r.spawnCell.2 = e2 := by simpa using h2
            have hx2 : e2.x = r.spawnCell.1 := by rw [← he2]; rfl
            have hy2 : e2.y = r.spawnCell.2 := by rw [← he2]; rfl
            exact not_solid_entity_idx w r.spawnCell.1 r.spawnCell.2 hs a e1 h1
              (h.1 a e1 h1 hc1) ⟨by rw [hpos.1, hx2], by rw [hpos.2, hy2]⟩
          | succ n =>
            rw [hbe] at h2
            exact absurd h2 (by simp)
        · rw [if_neg hal] at h1
          have : b - w.entities.length ≥ 1 := by omega
          cases hbe : b - w.entities.length with
          | zero => omega
          | succ n =>
            rw [hbe] at h2
            exact absurd h2 (by simp)

lemma inv_preSpawn (w : World) (pm : Nat) (key : Option Char) (r : Rand) (h : Inv w) :
    Inv (preSpawn w pm key r) := by
  rw [preSpawn]
  by_cases hm : (moveStage w key).2 = true
  · simp only [hm, if_true]
    exact inv_passFold _ (fun w' i d h' => inv_qTakeTurn w' i (pm + 1) d h') _ _
      (inv_passFold _ inv_enemyTakeTurn _ _ (inv_moveStage w key h))
  · simp only [Bool.not_eq_true] at hm
    simp only [hm, Bool.false_eq_true, if_false]
    exact inv_moveStage w key h

lemma inv_tick (w : World) (pm : Nat) (key : Option Char) (r : Rand) (h : Inv w) :
    Inv (tick w pm key r).1 := by
  rw [tick_fst_eq]
  by_cases hm : (moveStage w key).2 = true
  · rw [if_pos hm]
    exact inv_spawnStep _ _ _ (inv_preSpawn w pm key r h)
  · rw [if_neg hm]
    exact inv_preSpawn w pm key r h

lemma enemySolidB_spec (l : List Entity) (h : enemySolidB l = true) : EnemySolid l := by
  intro j e hj hc
  have hmem := List.getElem?_mem hj
  have := List.all_eq_true.mp h e hmem
  rw [hc] at this
  simpa using this

lemma stackFreeB_spec (l : List Entity) (h : stackFreeB l = true) : NoStack l := by
  induction l with
  | nil =>
    intro a b e1 e2 _ h1 _ _ _ _
    cases a <;> exact absurd h1 (by simp)
  | cons a rest ih =>
    rw [stackFreeB, Bool.and_eq_true] at h
    intro i j e1 e2 hij h1 h2 hc1 hc2 hpos
    cases i with
    | zero =>
      rw [List.getElem?_cons_zero] at h1
      have ha1 : a = e1 := by injection h1
      cases j with
      | zero => omega
      | succ jj =>
        rw [List.getElem?_cons_succ] at h2
        have hmem := List.getElem?_mem h2
        rcases (Bool.or_eq_true _ _).mp h.1 with hn | hall
        · rw [ha1, hc1] at hn
          exact absurd hn (by simp)
        · have hq := List.all_eq_true.mp hall e2 hmem
          rw [← ha1] at hpos
          simp only [hc2, hpos.1, hpos.2, Bool.not_eq_true] at hq
          simp at hq
    | succ ii =>
      cases j with
      | zero => omega
      | succ jj =>
        rw [List.getElem?_cons_succ] at h1 h2
        exact ih h.2 ii jj e1 e2 (by omega) h1 h2 hc1 hc2 hpos

lemma reachable_inv (w : World) (m : Nat) (h : Reachable w m) : Inv w := by
  induction h with
  | init =>
    exact ⟨enemySolidB_spec _ (by decide), stackFreeB_spec _ (by decide)⟩
  | step w' m' key r hr hv hgo hwin ih =>
    exact inv_tick w' m' key r ih

/-- C3 counterexample: enemy-enemy stacking is in fact impossible — no
reachable session state, under any sequence of random choices the `random`
module can produce, has two enemies on the same cell, because every enemy is
solid and both enemy relocation and spawning require a non-solid
destination. -/
theorem c3_no_stacking_possible : ¬StackingPossible := by
  intro hcl
  obtain ⟨w, m, hr, i, j, e1, e2, hij, h1, h2, hc1, hc2, hx, hy⟩ := hcl
  exact (reachable_inv w m hr).2 i j e1 e2 hij h1 h2 hc1 hc2 ⟨hx, hy⟩

/-- C3 amended: every reachable session state is free of enemy-enemy
stacking: the solidity test that guards enemy relocation and spawning already
rules out any cell occupied by another (solid) enemy, so no additional
occupancy check is needed and none could ever fire. -/
theorem c3_amended_no_stack (w : World) (m : Nat) (h : Reachable w m) : ¬hasStack w := by
  intro hst
  obtain ⟨i, j, e1, e2, hij, h1, h2, hc1, hc2, hx, hy⟩ := hst
  exact (reachable_inv w m h).2 i j e1 e2 hij h1 h2 hc1 hc2 ⟨hx, hy⟩

/-- C3 witness: the initial world is stack-free. -/
theorem c3_witness : ¬hasStack initWorld :=
  c3_amended_no_stack initWorld 0 Reachable.init

end PythonGame
